import Mathlib

/-!
Verification of the meeting-summarizer repository's recording/transcription
core against its design document.

The embedding below translates, from the source:

* the Ruby CLI test harness `WhisperTester` (option defaults, audio-file
  validation, Whisper parameter resolution, the generated Python script, and
  the subprocess result handling), and
* the Jotai recording atoms of `src/atoms/recording.ts` (the frontend
  recording state machine).

Python/Ruby strings are modelled as `List Char`; machine file sizes as `Nat`
(Ruby integers are arbitrary precision, no overflow); fallible operations as
`Except`.
-/

namespace MeetingSummarizer

/-! ## Python string primitives

`List Char` models of the Python `str` operations used by the generated
script: `str.strip()`, the `in` operator, `str.replace(pat, new, 1)` and
`re.sub` whitespace collapsing.  These are used both by the post-processing
embedding and by the Ruby-side `stdout.strip` call.
-/

/-- The single-quote character, U+0027. -/
def sq : Char := Char.ofNat 39

/-- Python whitespace (the characters `str.strip()` removes and `\s`
matches): space, tab, newline, carriage return, vertical tab, form feed,
and the ideographic space U+3000 (Python treats all Unicode whitespace this
way; these are the ones that can occur in this pipeline's text). -/
def pyWS (c : Char) : Bool :=
  c = ' ' || c = '\t' || c = '\n' || c = '\r' ||
  c = Char.ofNat 11 || c = Char.ofNat 12 || c = Char.ofNat 0x3000

/-- Remove leading Python whitespace (the front half of `str.strip()`). -/
def lstrip (l : List Char) : List Char := l.dropWhile pyWS

/-- Remove trailing Python whitespace (the back half of `str.strip()`). -/
def rstrip : List Char → List Char
  | [] => []
  | c :: r =>
    match rstrip r with
    | [] => if pyWS c then [] else [c]
    | t => c :: t

/-- Python `str.strip()`: drop leading and trailing whitespace. -/
def pstrip (l : List Char) : List Char := rstrip (lstrip l)

/-- `String`-typed wrapper for `str.strip()` (Ruby `String#strip` has the
same behaviour on the whitespace involved here). -/
def pystrip (s : String) : String := String.mk (pstrip s.data)

/-- `isPre pat l`: does `l` start with `pat`?  (Support for the Python `in`
operator and `str.replace`.) -/
def isPre : List Char → List Char → Bool
  | [], _ => true
  | _ :: _, [] => false
  | a :: ps, b :: ts => a = b && isPre ps ts

/-- Python's `pat in text` substring test. -/
def occursIn (pat : List Char) : List Char → Bool
  | [] => isPre pat []
  | c :: r => isPre pat (c :: r) || occursIn pat r

/-- Python's `text.replace(pat, '', 1)`: delete the first occurrence of
`pat` (if any). -/
def replaceFirst (pat : List Char) : List Char → List Char
  | [] => []
  | c :: r =>
    if isPre pat (c :: r) then (c :: r).drop pat.length
    else c :: replaceFirst pat r

/-! ## TranscriptionEngineAdapter: `transcribe_audio` (part_000 lines 119-145)

The Ruby method runs `Open3.capture3('python3', '-c', script)` and
discriminates on `status.success?` (exit status zero).  The subprocess's
observable output is modelled as a `ProcResult`; the elapsed wall-clock
milliseconds are a parameter (the Ruby computes them from `Time.now`).
-/

/-- Captured output of the engine subprocess: stdout, stderr, and whether
the exit status was zero (`status.success?`). -/
structure ProcResult where
  out : String
  err : String
  exit_ok : Bool

/-- The result hash `transcribe_audio` builds: the `success: true` shape
`{text:, stderr:, processing_time_ms:}` or the `success: false` shape
`{error:, stdout:, processing_time_ms:}`. -/
inductive TranscribeOutcome
  | ok (text stderrLog : String) (ms : Nat)
  | fail (errLog partialOut : String) (ms : Nat)
  deriving DecidableEq

/-- `transcribe_audio` (part_000 lines 119-145): on exit status zero the
result is success carrying `stdout.strip`, the stderr diagnostic log and the
processing time; otherwise failure carrying stderr and the partial stdout. -/
def transcribe_audio (r : ProcResult) (ms : Nat) : TranscribeOutcome :=
  if r.exit_ok then .ok (pystrip r.out) r.err ms
  else .fail r.err r.out ms

/-! ## Frontend recording atoms (`src/atoms/recording.ts`)

`recordingStateAtom` holds `{isRecording, duration, isPaused}`;
`currentRecordingAtom` holds the active `Recording | null`.
`startRecordingAtom` (lines 42-71) checks `isRecording`, then awaits
`TauriService.startRecording()` and only afterwards mutates both atoms.
The backend call's outcome is a parameter (`Except`), and `new Date()` is
the `now` parameter.
-/

/-- The `RecordingState` interface: `{isRecording, duration, isPaused}`. -/
structure RecordingState where
  isRecording : Bool
  duration : Nat
  isPaused : Bool
  deriving DecidableEq

/-- The frontend `Recording` value the atom constructs (`createdAt` is the
`new Date()` timestamp). -/
structure Recording where
  id : String
  filename : String
  duration : Nat
  createdAt : Nat
  deriving DecidableEq

/-- The two atoms `startRecordingAtom` reads and writes. -/
structure FrontendState where
  recordingState : RecordingState
  currentRecording : Option Recording
  deriving DecidableEq

/-- `startRecordingAtom` (recording.ts lines 42-71): if a recording is in
progress, throw `'Recording is already in progress'` (state untouched);
otherwise await the backend — on backend error, rethrow with state
untouched; on success `sessionId`, set `recordingStateAtom` to
`{isRecording: true, duration: 0, isPaused: false}` and
`currentRecordingAtom` to `{id: sessionId, filename: 'Recording...',
duration: 0, createdAt: now}`. -/
def startRecording (now : Nat) (s : FrontendState)
    (backend : Except String String) : Except String String × FrontendState :=
  if s.recordingState.isRecording then
    (.error "Recording is already in progress", s)
  else
    match backend with
    | .error e => (.error e, s)
    | .ok sessionId =>
      (.ok sessionId,
        { recordingState := { isRecording := true, duration := 0, isPaused := false },
          currentRecording := some
            { id := sessionId, filename := "Recording...", duration := 0,
              createdAt := now } })

/-! ## ParameterResolver: `build_whisper_params` (part_000 lines 285-327)

Ruby hashes with symbol keys are modelled as association lists
`List (String × PVal)` (symbol names as strings, insertion-ordered, unique
keys when built by the program).  `hget` is `Hash#[]`, `hset` is
`Hash#[]=`, `hashMerge` is `Hash#merge` (right operand wins key-by-key;
result keeps the left operand's key order, then appends the right operand's
novel keys in its order).
-/

/-- A Ruby value stored in `@whisper_params` / the resolved parameter hash:
string, integer, float (exact rational — every literal in the source is a
terminating decimal), boolean, or integer array. -/
inductive PVal
  | pstr (s : String)
  | pint (n : ℤ)
  | pfloat (q : ℚ)
  | pbool (b : Bool)
  | parr (l : List ℤ)
  deriving DecidableEq

/-- Ruby `Hash#[]`: value of the first pair with the given key. -/
def hget : List (String × PVal) → String → Option PVal
  | [], _ => none
  | p :: rest, k => if p.1 = k then some p.2 else hget rest k

/-- Ruby `Hash#[]=`: replace the value in place if the key is present,
otherwise append the pair. -/
def hset : List (String × PVal) → String → PVal → List (String × PVal)
  | [], k, v => [(k, v)]
  | p :: rest, k, v => if p.1 = k then (k, v) :: rest else p :: hset rest k v

/-- The key list of a hash. -/
def hkeys (l : List (String × PVal)) : List String := l.map (fun p => p.1)

/-- Ruby `Hash#merge` / `merge!`: every key of `a` keeps its position with
`b`'s value when `b` also has the key, and `b`'s keys absent from `a` are
appended in `b`'s order. -/
def hashMerge (a b : List (String × PVal)) : List (String × PVal) :=
  a.map (fun p => (p.1, (hget b p.1).getD p.2)) ++
    b.filter (fun q => (hget a q.1).isNone)

/-- The base parameters (lines 286-289): `{language:, task: 'transcribe'}`. -/
def base_params (language : String) : List (String × PVal) :=
  [("language", .pstr language), ("task", .pstr "transcribe")]

/-- The Japanese-tuned defaults merged when `@language == 'ja'`
(lines 292-302). -/
def ja_tuned : List (String × PVal) :=
  [("temperature", .pfloat 0.2), ("best_of", .pint 1), ("beam_size", .pint 1),
   ("patience", .pfloat 1.0), ("length_penalty", .pfloat 1.0),
   ("suppress_tokens", .parr [-1]), ("word_timestamps", .pbool false),
   ("condition_on_previous_text", .pbool true)]

/-- The defaults merged for every other language (lines 303-309). -/
def fast_tuned : List (String × PVal) :=
  [("temperature", .pfloat 0.2), ("best_of", .pint 1), ("beam_size", .pint 1)]

/-- `build_whisper_params`, hash-building part (lines 285-312): base
parameters, then the language-dependent tuned defaults, then the user
overrides with `:no_preprocessing` rejected; each `merge!` lets the newer
hash win key-by-key.  (The Ruby method then renders this hash to Python
keyword-argument text — `render_whisper_params` below.) -/
def build_whisper_params (language : String)
    (overrides : List (String × PVal)) : List (String × PVal) :=
  hashMerge
    (hashMerge (base_params language)
      (if language = "ja" then ja_tuned else fast_tuned))
    (overrides.filter (fun p => !(p.1 == "no_preprocessing")))

/-! Rendering of the parameter hash to Python keyword-argument text
(lines 314-326).  Ruby interpolates each value with `to_s`; floats print as
terminating decimals (`0.2`, `1.0`), which `renderFloat` reproduces exactly
for the terminating rationals the program uses. -/

/-- Decimal digits of a fractional part `0 ≤ q < 1`, with fuel (every float
in the source terminates within a few digits). -/
def renderFloatFrac : Nat → ℚ → String
  | 0, _ => ""
  | fuel + 1, q =>
    if q = 0 then ""
    else
      let d : ℤ := ⌊q * 10⌋
      toString d ++ renderFloatFrac fuel (q * 10 - (d : ℚ))

/-- Ruby `Float#to_s` for the nonnegative terminating decimals used here:
`0.2` → `"0.2"`, `1.0` → `"1.0"`. -/
def renderFloat (q : ℚ) : String :=
  let ip : ℤ := ⌊q⌋
  let fp : ℚ := q - (ip : ℚ)
  toString ip ++ "." ++ (if fp = 0 then "0" else renderFloatFrac 17 fp)

/-- Ruby value interpolation in `"#\x7bkey\x7d=..."` (lines 315-326):
strings are single-quoted, booleans become `True`/`False`, arrays print as
`[v1, v2]`, numbers print as themselves. -/
def renderVal : PVal → String
  | .pstr s => String.mk [sq] ++ s ++ String.mk [sq]
  | .pint n => toString n
  | .pfloat q => renderFloat q
  | .pbool b => if b then "True" else "False"
  | .parr l => "[" ++ String.intercalate ", " (l.map toString) ++ "]"

/-- The `params.map { ... }.join(",\n            ")` rendering
(lines 315-326). -/
def render_whisper_params (params : List (String × PVal)) : String :=
  String.intercalate (",\n            ")
    (params.map (fun p => p.1 ++ "=" ++ renderVal p.2))

/-! ## OutputFormatter: Japanese post-processing (script lines 194-213)

The generated Python runs, for language `ja`:

    for pattern in prompt_patterns:
        while pattern in text:
            text = text.replace(pattern, '', 1).strip()
    text = re.sub(r'\s+', ' ', text).strip()
    if not text.strip():
        text = "音声を認識できませんでした。"

The `while` loop terminates because each iteration removes a nonempty
pattern, shortening the text; `stripLoopFuel` runs it with fuel
`text.length + 1`, which exceeds the possible iteration count
(`strip_loop_clears` below proves the fuel suffices to reach the loop's
exit condition).
-/

/-- One pattern's `while pattern in text` loop, fuelled. -/
def stripLoopFuel (pat : List Char) : Nat → List Char → List Char
  | 0, text => text
  | fuel + 1, text =>
    if occursIn pat text then
      stripLoopFuel pat fuel (pstrip (replaceFirst pat text))
    else text

/-- The `while pattern in text: text = text.replace(pattern, '', 1).strip()`
loop (script lines 205-207). -/
def strip_pattern_loop (pat text : List Char) : List Char :=
  stripLoopFuel pat (text.length + 1) text

/-- `re.sub(r'\s+', ' ', text)` (script line 210): each maximal run of
whitespace becomes a single space (the run's last character emits the
space, the earlier ones are dropped — same output, structural recursion). -/
def collapseWS : List Char → List Char
  | [] => []
  | [c] => if pyWS c then [' '] else [c]
  | c1 :: c2 :: rest =>
    if pyWS c1 then
      if pyWS c2 then collapseWS (c2 :: rest)
      else ' ' :: collapseWS (c2 :: rest)
    else c1 :: collapseWS (c2 :: rest)

/-- The hallucinated prompt-echo phrases (script lines 198-203), in the
source's order. -/
def prompt_patterns : List (List Char) :=
  ["日本語の音声です：".data, "以下は日本語の音声です：".data,
   "日本語の音声です。".data, "以下は日本語の音声です。".data]

/-- The placeholder substituted for empty text (script line 213). -/
def placeholder : List Char := "音声を認識できませんでした。".data

/-- The `for pattern in prompt_patterns` loop (script lines 205-207): each
phrase's `while` loop runs in the list order. -/
def strip_prompts (text : List Char) : List Char :=
  prompt_patterns.foldl (fun acc pat => strip_pattern_loop pat acc) text

/-- The Japanese branch of the result processing (script lines 195-213):
strip each prompt phrase in order, collapse whitespace and trim
(`re.sub(r'\s+', ' ', text).strip()`), then substitute the placeholder if
nothing remains (`if not text.strip()`). -/
def postprocess_ja (text : List Char) : List Char :=
  if pstrip (pstrip (collapseWS (strip_prompts text))) = [] then placeholder
  else pstrip (collapseWS (strip_prompts text))

/-- Result-text processing (script lines 192-213):
`text = result.get('text', '').strip()`, then the Japanese post-processing
exactly when the interpolated language is `'ja'`. -/
def process_text (language : String) (raw : List Char) : List Char :=
  if language = "ja" then postprocess_ja (pstrip raw) else pstrip raw

/-! Well-spacedness: the observable effect of `re.sub(r'\s+', ' ', _)`
followed by `.strip()` — no two adjacent whitespace characters, and no
leading or trailing whitespace. -/

/-- No two adjacent whitespace characters. -/
def noRepWS : List Char → Bool
  | [] => true
  | [_] => true
  | a :: b :: r => !(pyWS a && pyWS b) && noRepWS (b :: r)

/-- Does the text start with whitespace? -/
def leadWS : List Char → Bool
  | [] => false
  | c :: _ => pyWS c

/-- Does the text end with whitespace? -/
def trailWS : List Char → Bool
  | [] => false
  | [c] => pyWS c
  | _ :: b :: r => trailWS (b :: r)

/-- Whitespace-normalised: single internal spaces only, trimmed ends. -/
def wellSpaced (l : List Char) : Bool :=
  noRepWS l && !leadWS l && !trailWS l

/-! ## CLI configuration: `WhisperTester#initialize` and `parse_options`
(part_000 lines 12-19 and 43-84)

Option parsing is modelled on already-tokenised options: `OptionParser`
recognises the flags and converts their arguments (`Float`/`Integer`), and
each handler is one `CliOpt` case; `parse!` removes the option tokens from
`argv`, so `run` below receives the remaining positional arguments
separately. -/

/-- The `WhisperTester` instance state set in `initialize`. -/
structure Config where
  model_size : String
  language : String
  verbose : Bool
  output_format : String
  whisper_params : List (String × PVal)
  deriving DecidableEq

/-- `initialize` (lines 13-19): model `'small'`, language `'ja'`, verbose
off, output format `'text'`, empty override hash. -/
def initConfig : Config :=
  { model_size := "small", language := "ja", verbose := false,
    output_format := "text", whisper_params := [] }

/-- One parsed command-line option (lines 47-77). -/
inductive CliOpt
  | lang_opt (s : String)
  | model_opt (s : String)
  | verbose_opt
  | format_opt (s : String)
  | temperature_opt (q : ℚ)
  | best_of_opt (n : ℤ)
  | beam_size_opt (n : ℤ)
  | no_preprocessing_opt

/-- The body of the matching `opts.on` handler. -/
def applyOpt (c : Config) : CliOpt → Config
  | .lang_opt s => { c with language := s }
  | .model_opt s => { c with model_size := s }
  | .verbose_opt => { c with verbose := true }
  | .format_opt s => { c with output_format := s }
  | .temperature_opt q =>
    { c with whisper_params := hset c.whisper_params "temperature" (.pfloat q) }
  | .best_of_opt n =>
    { c with whisper_params := hset c.whisper_params "best_of" (.pint n) }
  | .beam_size_opt n =>
    { c with whisper_params := hset c.whisper_params "beam_size" (.pint n) }
  | .no_preprocessing_opt =>
    { c with whisper_params := hset c.whisper_params "no_preprocessing" (.pbool true) }

/-- `parse_options` (lines 43-84): run every recognised option's handler in
order. -/
def parse_options (c : Config) (opts : List CliOpt) : Config :=
  opts.foldl applyOpt c

/-! ## The generated Python script: `build_whisper_script`
(part_000 lines 147-258) and `preprocessing_code` (lines 260-283)

The Ruby method builds the engine invocation as Python **source text** via
heredoc string interpolation; the script is modelled line-by-line (the
`<<~` heredoc's common indentation is zero, so the lines appear as
written).  Interpolated values (`audio_file`, `@model_size`, `@language`,
`@output_format`, the rendered parameter text and the preprocessing block)
are spliced into the line list exactly where `#\x7b...\x7d` appears in the
source.  The rendered parameter string contains embedded newlines
(`join(",\n            ")`); it is kept as the single list element where
the interpolation sits, which does not affect the relative order of any
other line. -/

/-- `preprocessing_code` (lines 260-283) after `<<~`'s four-space dedent
and `.strip`. -/
def preprocessing_code : List String :=
  ["try:",
   "    import librosa",
   "    import numpy as np",
   "    ",
   "    print(\x22Audio preprocessing with librosa...\x22, file=sys.stderr)",
   "    audio_data, sr = librosa.load(audio_file, sr=16000)",
   "    ",
   "    # ボリューム正規化",
   "    rms = np.sqrt(np.mean(audio_data**2))",
   "    if rms > 0:",
   "        target_rms = 0.1",
   "        audio_data = audio_data * (target_rms / rms)",
   "    ",
   "    # 無音部分の除去",
   "    audio_data, _ = librosa.effects.trim(audio_data, top_db=30)",
   "    print(f\x22Preprocessing completed: \x7blen(audio_data)\x7d samples\x22, file=sys.stderr)",
   "    ",
   "except ImportError:",
   "    print(\x22librosa not available, using direct file processing\x22, file=sys.stderr)",
   "    audio_data = audio_file"]

/-- The heredoc's lines (source lines 159-254), with the preprocessing
block or the raw-file fallback spliced at line 183's interpolation slot. -/
def build_whisper_script_lines (audio_file model_size language output_format params : String)
    (preprocessing : Bool) : List String :=
  ["import whisper",
   "import sys",
   "import warnings",
   "import os",
   "import json",
   "warnings.filterwarnings(\x22ignore\x22)",
   "",
   "try:",
   "    audio_file = \x27" ++ audio_file ++ "\x27",
   "    ",
   "    # ファイル存在確認",
   "    if not os.path.exists(audio_file):",
   "        print(f\x22Error: Audio file not found: \x7baudio_file\x7d\x22, file=sys.stderr)",
   "        sys.exit(1)",
   "    ",
   "    file_size = os.path.getsize(audio_file)",
   "    print(f\x22Loading model: " ++ model_size ++ "\x22, file=sys.stderr)",
   "    ",
   "    # GPU加速の設定（現在は互換性のため CPU のみ）",
   "    model = whisper.load_model(\x27" ++ model_size ++ "\x27)",
   "    ",
   "    print(f\x22Processing: \x7baudio_file\x7d (\x7bfile_size\x7d bytes)\x22, file=sys.stderr)",
   "    ",
   "    # 音声前処理"] ++
  (if preprocessing then preprocessing_code else ["    audio_data = audio_file"]) ++
  ["    ",
   "    # 書き起こし実行",
   "    result = model.transcribe(",
   "        audio_data,",
   "        " ++ params,
   "    )",
   "    ",
   "    # 結果の処理",
   "    text = result.get(\x27text\x27, \x27\x27).strip()",
   "    ",
   "    # 日本語の後処理",
   "    if \x27" ++ language ++ "\x27 == \x27ja\x27:",
   "        import re",
   "        # プロンプトテキストの削除",
   "        prompt_patterns = [",
   "            \x27日本語の音声です：\x27,",
   "            \x27以下は日本語の音声です：\x27,",
   "            \x27日本語の音声です。\x27,",
   "            \x27以下は日本語の音声です。\x27",
   "        ]",
   "        ",
   "        for pattern in prompt_patterns:",
   "            while pattern in text:",
   "                text = text.replace(pattern, \x27\x27, 1).strip()",
   "        ",
   "        # テキスト整形",
   "        text = re.sub(r\x27\\s+\x27, \x27 \x27, text).strip()",
   "        ",
   "        if not text.strip():",
   "            text = \x22音声を認識できませんでした。\x22",
   "    ",
   "    # 出力形式に応じて結果を出力",
   "    if \x27" ++ output_format ++ "\x27 == \x27json\x27:",
   "        output = \x7b",
   "            \x27text\x27: text,",
   "            \x27language\x27: result.get(\x27language\x27, \x27" ++ language ++ "\x27),",
   "            \x27segments\x27: result.get(\x27segments\x27, []),",
   "            \x27duration\x27: result.get(\x27duration\x27, 0),",
   "            \x27model\x27: \x27" ++ model_size ++ "\x27,",
   "            \x27preprocessing\x27: " ++ (if preprocessing then "True" else "False"),
   "        \x7d",
   "        print(json.dumps(output, ensure_ascii=False, indent=2))",
   "    elif \x27" ++ output_format ++ "\x27 == \x27srt\x27:",
   "        segments = result.get(\x27segments\x27, [])",
   "        for i, segment in enumerate(segments, 1):",
   "            start = segment.get(\x27start\x27, 0)",
   "            end = segment.get(\x27end\x27, 0)",
   "            text_seg = segment.get(\x27text\x27, \x27\x27).strip()",
   "            ",
   "            start_time = format_time(start)",
   "            end_time = format_time(end)",
   "            ",
   "            print(f\x22\x7bi\x7d\x22)",
   "            print(f\x22\x7bstart_time\x7d --> \x7bend_time\x7d\x22)",
   "            print(text_seg)",
   "            print()",
   "    else:",
   "        print(text)",
   "        ",
   "except Exception as e:",
   "    print(f\x22Error: \x7be\x7d\x22, file=sys.stderr)",
   "    import traceback",
   "    traceback.print_exc(file=sys.stderr)",
   "    sys.exit(1)",
   "",
   "def format_time(seconds):",
   "    hours = int(seconds // 3600)",
   "    minutes = int((seconds % 3600) // 60)",
   "    secs = int(seconds % 60)",
   "    millis = int((seconds % 1) * 1000)",
   "    return f\x22\x7bhours:02d\x7d:\x7bminutes:02d\x7d:\x7bsecs:02d\x7d,\x7bmillis:03d\x7d\x22"]

/-- Ruby truthiness (`nil`/`false` are falsy, everything else truthy). -/
def pvalTruthy : PVal → Bool
  | .pbool b => b
  | _ => true

/-- `build_whisper_script` (lines 147-158): resolve parameters, decide the
preprocessing block from `@whisper_params[:no_preprocessing]`, and emit the
script. -/
def build_whisper_script (c : Config) (audio_file : String) : List String :=
  let preprocessing :=
    match hget c.whisper_params "no_preprocessing" with
    | some v => !pvalTruthy v
    | none => true
  build_whisper_script_lines audio_file c.model_size c.language c.output_format
    (render_whisper_params (build_whisper_params c.language c.whisper_params))
    preprocessing

/-- The argument vector `Open3.capture3('python3', '-c', script)` executes
(line 125); the script text is the newline-join of its lines. -/
def transcribe_argv (c : Config) (audio_file : String) : List String :=
  ["python3", "-c", String.intercalate "\n" (build_whisper_script c audio_file)]

/-- Index of the first occurrence of `s` (length of the list if absent). -/
def lineIdx (s : String) : List String → Nat
  | [] => 0
  | l :: rest => if l = s then 0 else lineIdx s rest + 1

/-- Chars of the first single-quoted Python string literal on a line: what
the Python parser reads as the literal's value (everything from the first
quote up to the next quote). -/
def parse_sq_literal (line : List Char) : List Char :=
  (((line.dropWhile (fun c => !(c = sq))).drop 1).takeWhile (fun c => !(c = sq)))

/-! ## `format_time` (script lines 249-254)

The Python helper appended to the generated script.  Segment times are
modelled as exact rationals (the claim's inputs 61.5 and 63.25 are exactly
representable); Python `//` is floor division, `%` the matching floored
modulus, and `int()` truncates toward zero. -/

/-- Python `int()` on a rational: truncation toward zero. -/
def pytrunc (q : ℚ) : ℤ := if q < 0 then -⌊-q⌋ else ⌊q⌋

/-- Python `//` on rationals (floor division, result a whole rational). -/
def pyfloordiv (a b : ℚ) : ℚ := ((⌊a / b⌋ : ℤ) : ℚ)

/-- Python `%` on rationals: `a - b * (a // b)`. -/
def pymod (a b : ℚ) : ℚ := a - b * pyfloordiv a b

/-- Python `f"\x7bn:02d\x7d"`-style zero padding (values here are
nonnegative). -/
def padInt (width : Nat) (n : ℤ) : String :=
  let s := toString n
  String.mk (List.replicate (width - s.length) '0') ++ s

/-- `format_time(seconds)` (script lines 249-254): `HH:MM:SS,mmm`. -/
def format_time (seconds : ℚ) : String :=
  let hours := pytrunc (pyfloordiv seconds 3600)
  let minutes := pytrunc (pyfloordiv (pymod seconds 3600) 60)
  let secs := pytrunc (pymod seconds 60)
  let millis := pytrunc (pymod seconds 1 * 1000)
  padInt 2 hours ++ ":" ++ padInt 2 minutes ++ ":" ++ padInt 2 secs ++ "," ++ padInt 3 millis

/-! ## `validate_audio_file` (part_000 lines 86-117) and `run` (lines 21-39)

The filesystem's answers about the positional path are a `FileInfo`
(`Pathname#exist?`, `#file?`, `#extname`, `#size`).  `exit 1` is modelled
as `Except.error 1`.  The unsupported-extension branch only prints a
warning (lines 100-104) and rejects nothing, so it does not affect the
result value. -/

/-- What the filesystem reports about the audio path. -/
structure FileInfo where
  found : Bool
  is_file : Bool
  extname : String
  size : Nat

/-- The 500 MiB limit (line 108): `500 * 1024 * 1024` bytes. -/
def max_size : Nat := 500 * 1024 * 1024

/-- `validate_audio_file` (lines 86-117): missing path, directory, or size
strictly above `max_size` each `exit 1`; anything else continues (the
extension check only warns). -/
def validate_audio_file (f : FileInfo) : Except Nat Unit :=
  if !f.found then .error 1
  else if !f.is_file then .error 1
  else if max_size < f.size then .error 1
  else .ok ()

/-- `run` (lines 21-39): parse options, print help and `exit 1` when no
positional argument remains, validate the audio file, then invoke the
engine (`transcribe_audio` on the built argument vector).  The produced
value is the engine invocation's argv; an `Except.error` carries the exit
code of a run that never reaches the engine. -/
def run (opts : List CliOpt) (positional : List String) (f : FileInfo) :
    Except Nat (List String) :=
  let c := parse_options initConfig opts
  match positional with
  | [] => .error 1
  | audio_file :: _ =>
    match validate_audio_file f with
    | .error code => .error code
    | .ok _ => .ok (transcribe_argv c audio_file)

/-- A benign audio path. -/
def benign_path : String := "meeting.wav"

/-- An audio path containing a single-quote character (legal in file
names). -/
def quoted_path : String := "a\x27.wav"

/-! # Theorems -/

/-! ## Hash-merge lemmas (shared by the parameter-resolution claims) -/

theorem hget_append_left {a b : List (String × PVal)} {k : String} {v : PVal}
    (h : hget a k = some v) : hget (a ++ b) k = some v := by
  induction a with
  | nil => exact absurd h (by simp only [hget]; exact fun hc => Option.noConfusion hc)
  | cons p rest ih =>
    by_cases hk : p.1 = k
    · simpa [hget, hk] using h
    · simp only [hget, hk, if_false, List.cons_append] at h ⊢
      exact ih h

theorem hget_append_right {a : List (String × PVal)} {k : String}
    (h : hget a k = none) (b : List (String × PVal)) :
    hget (a ++ b) k = hget b k := by
  induction a with
  | nil => simp
  | cons p rest ih =>
    by_cases hk : p.1 = k
    · simp [hget, hk] at h
    · simp only [hget, hk, if_false] at h
      simpa [hget, hk] using ih h

theorem hget_map_merge (a b : List (String × PVal)) (k : String) :
    hget (a.map (fun p => (p.1, (hget b p.1).getD p.2))) k =
      (hget a k).map (fun v => (hget b k).getD v) := by
  induction a with
  | nil => simp [hget]
  | cons p rest ih =>
    by_cases hk : p.1 = k
    · simp [hget, hk]
    · simpa [hget, hk] using ih

theorem hget_filter_isNone {a : List (String × PVal)} {k : String}
    (h : hget a k = none) (b : List (String × PVal)) :
    hget (b.filter (fun q => (hget a q.1).isNone)) k = hget b k := by
  induction b with
  | nil => rfl
  | cons q rest ih =>
    by_cases hk : q.1 = k
    · have hq : (hget a q.1).isNone = true := by
        simp only [hk, h]; rfl
      rw [List.filter_cons]
      simp [hq, hget, hk, h]
    · rw [List.filter_cons]
      cases hq : (hget a q.1).isNone with
      | true => simpa [hq, hget, hk] using ih
      | false => simpa [hq, hget, hk] using ih

theorem hget_hashMerge_right {b : List (String × PVal)} {k : String} {v : PVal}
    (a : List (String × PVal)) (h : hget b k = some v) :
    hget (hashMerge a b) k = some v := by
  unfold hashMerge
  cases ha : hget a k with
  | some w =>
    apply hget_append_left
    rw [hget_map_merge, ha, h]
    rfl
  | none =>
    have hmap : hget (a.map (fun p => (p.1, (hget b p.1).getD p.2))) k = none := by
      rw [hget_map_merge, ha]; rfl
    rw [hget_append_right hmap, hget_filter_isNone ha, h]

theorem hget_filter_ne {k s : String} (hne : k ≠ s) (l : List (String × PVal)) :
    hget (l.filter (fun p => !(p.1 == s))) k = hget l k := by
  induction l with
  | nil => rfl
  | cons p rest ih =>
    by_cases hk : p.1 = k
    · have hp : (!(p.1 == s)) = true := by
        simp only [hk]
        simpa using hne
      rw [List.filter_cons]
      simp [hp, hget, hk, hne]
    · rw [List.filter_cons]
      cases hp : (!(p.1 == s)) with
      | true => simpa [hp, hget, hk] using ih
      | false => simpa [hp, hget, hk] using ih

theorem mem_hkeys_hashMerge {k : String} {a b : List (String × PVal)}
    (h : k ∈ hkeys (hashMerge a b)) : k ∈ hkeys a ∨ k ∈ hkeys b := by
  unfold hashMerge hkeys at h
  rw [List.map_append] at h
  rcases List.mem_append.mp h with hl | hr
  · left
    rcases List.mem_map.mp hl with ⟨p, hp, hpk⟩
    rcases List.mem_map.mp hp with ⟨q, hq, hqp⟩
    exact List.mem_map.mpr ⟨q, hq, by rw [← hqp] at hpk; simpa using hpk⟩
  · right
    rcases List.mem_map.mp hr with ⟨p, hp, hpk⟩
    exact List.mem_map.mpr ⟨p, (List.mem_filter.mp hp).1, hpk⟩

theorem mem_hkeys_filter_ne {k s : String} {l : List (String × PVal)}
    (h : k ∈ hkeys (l.filter (fun p => !(p.1 == s)))) : k ≠ s := by
  rcases List.mem_map.mp h with ⟨p, hp, hpk⟩
  have := (List.mem_filter.mp hp).2
  simp at this
  rw [← hpk]
  exact this

/-- C4: For every language, every set of base and language-tuned default
parameters, and every user-supplied override map, the final engine parameter
set gives each overridden key the user-supplied value (overrides are merged
last and win key-by-key over both the base defaults `{language, task}` and
the language-tuned defaults), and the `no_preprocessing` flag never appears
as a key in the parameter set passed to the engine. -/
theorem c4_overrides_win (language : String) (overrides : List (String × PVal)) :
    (∀ k v, k ≠ "no_preprocessing" → hget overrides k = some v →
      hget (build_whisper_params language overrides) k = some v)
  ∧ "no_preprocessing" ∉ hkeys (build_whisper_params language overrides) := by
  constructor
  · intro k v hk hov
    unfold build_whisper_params
    apply hget_hashMerge_right
    rw [hget_filter_ne hk, hov]
  · intro hmem
    unfold build_whisper_params at hmem
    rcases mem_hkeys_hashMerge hmem with hbase | hov
    · rcases mem_hkeys_hashMerge hbase with hb | ht
      · simp [base_params, hkeys] at hb
      · by_cases hja : language = "ja"
        · rw [if_pos hja] at ht
          simp [ja_tuned, hkeys] at ht
        · rw [if_neg hja] at ht
          simp [fast_tuned, hkeys] at ht
    · exact mem_hkeys_filter_ne hov rfl

/-- Witness for C4 at a concrete override map. -/
theorem c4_overrides_win_witness :
    hget (build_whisper_params "en" [("temperature", .pfloat 0.5)]) "temperature"
      = some (.pfloat 0.5)
  ∧ "no_preprocessing" ∉
      hkeys (build_whisper_params "ja" [("no_preprocessing", .pbool true)]) :=
  ⟨(c4_overrides_win "en" [("temperature", .pfloat 0.5)]).1 "temperature"
      (.pfloat 0.5) (by decide) rfl,
   (c4_overrides_win "ja" [("no_preprocessing", .pbool true)]).2⟩

/-- C5: For every language code other than `"ja"`, the resolved parameter
set (absent user overrides) is exactly the base `{language, task}` plus
`{temperature, best_of, beam_size}`, excluding the Japanese-tuned keys;
for `"ja"` the tuned keys are present with their fixed values. -/
theorem c5_language_tuning (language : String) (h : language ≠ "ja") :
    (build_whisper_params language [] =
      [("language", .pstr language), ("task", .pstr "transcribe"),
       ("temperature", .pfloat 0.2), ("best_of", .pint 1), ("beam_size", .pint 1)]
    ∧ ∀ k ∈ ["patience", "length_penalty", "suppress_tokens", "word_timestamps",
        "condition_on_previous_text"], k ∉ hkeys (build_whisper_params language []))
  ∧ build_whisper_params "ja" [] =
      [("language", .pstr "ja"), ("task", .pstr "transcribe"),
       ("temperature", .pfloat 0.2), ("best_of", .pint 1), ("beam_size", .pint 1),
       ("patience", .pfloat 1.0), ("length_penalty", .pfloat 1.0),
       ("suppress_tokens", .parr [-1]), ("word_timestamps", .pbool false),
       ("condition_on_previous_text", .pbool true)] := by
  have heq : build_whisper_params language [] =
      [("language", .pstr language), ("task", .pstr "transcribe"),
       ("temperature", .pfloat 0.2), ("best_of", .pint 1), ("beam_size", .pint 1)] := by
    unfold build_whisper_params
    rw [if_neg h]
    rfl
  refine ⟨⟨heq, ?_⟩, by rfl⟩
  rw [heq]
  intro k hkmem
  fin_cases hkmem <;> simp [hkeys]

/-- Witness for C5 at the concrete language `"en"`. -/
theorem c5_language_tuning_witness :
    build_whisper_params "en" [] =
      [("language", .pstr "en"), ("task", .pstr "transcribe"),
       ("temperature", .pfloat 0.2), ("best_of", .pint 1), ("beam_size", .pint 1)] :=
  ((c5_language_tuning "en" (by decide)).1).1

/-- C3: calling start while a recording is in progress fails with the
conflict error and leaves the state (including the current recording
session) unchanged; only a call in the idle state transitions to Recording
and yields the new recording id. -/
theorem c3_start_conflict (now : Nat) (s : FrontendState) (backend : Except String String) :
    (s.recordingState.isRecording = true →
      startRecording now s backend = (.error "Recording is already in progress", s))
  ∧ (∀ sessionId, s.recordingState.isRecording = false → backend = .ok sessionId →
      startRecording now s backend =
        (.ok sessionId,
          { recordingState := { isRecording := true, duration := 0, isPaused := false },
            currentRecording := some
              { id := sessionId, filename := "Recording...", duration := 0,
                createdAt := now } })) := by
  constructor
  · intro h
    simp [startRecording, h]
  · intro sessionId h hb
    simp [startRecording, h, hb]

/-- Witness for C3: a busy state rejects, an idle state starts. -/
theorem c3_start_conflict_witness :
    startRecording 0 ⟨⟨true, 5, false⟩, none⟩ (.ok "r2")
      = (.error "Recording is already in progress", ⟨⟨true, 5, false⟩, none⟩)
  ∧ startRecording 7 ⟨⟨false, 0, false⟩, none⟩ (.ok "r1")
      = (.ok "r1", ⟨⟨true, 0, false⟩, some ⟨"r1", "Recording...", 0, 7⟩⟩) :=
  ⟨(c3_start_conflict 0 ⟨⟨true, 5, false⟩, none⟩ (.ok "r2")).1 rfl,
   (c3_start_conflict 7 ⟨⟨false, 0, false⟩, none⟩ (.ok "r1")).2 "r1" rfl rfl⟩

/-- C9: when the backend start call throws, the action rethrows the error
and the frontend state — recording flags, duration, pause flag and the
current-recording session — is exactly what it was. -/
theorem c9_start_error_state_unchanged (now : Nat) (s : FrontendState) (e : String)
    (h : s.recordingState.isRecording = false) :
    startRecording now s (.error e) = (.error e, s) := by
  simp [startRecording, h]

/-- Witness for C9 at a concrete idle state. -/
theorem c9_start_error_state_unchanged_witness :
    startRecording 3 ⟨⟨false, 9, true⟩, none⟩ (.error "backend down")
      = (.error "backend down", ⟨⟨false, 9, true⟩, none⟩) :=
  c9_start_error_state_unchanged 3 ⟨⟨false, 9, true⟩, none⟩ "backend down" rfl

/-- C8: the adapter result is discriminated solely by the exit status —
exit zero yields success with the stripped stdout text (possibly empty:
an empty text is still the success shape), the stderr diagnostic log and
the elapsed time; nonzero yields failure with the diagnostic log and the
partial stdout. -/
theorem c8_exit_status_contract (r : ProcResult) (ms : Nat) :
    (r.exit_ok = true → transcribe_audio r ms = .ok (pystrip r.out) r.err ms)
  ∧ (r.exit_ok = false → transcribe_audio r ms = .fail r.err r.out ms)
  ∧ transcribe_audio { out := "", err := r.err, exit_ok := true } ms
      = .ok "" r.err ms := by
  refine ⟨fun h => by simp [transcribe_audio, h], fun h => by simp [transcribe_audio, h], ?_⟩
  simp [transcribe_audio]
  rfl

/-- Witness for C8: one successful and one failed subprocess. -/
theorem c8_exit_status_contract_witness :
    transcribe_audio ⟨" hello ", "log", true⟩ 42 = .ok (pystrip " hello ") "log" 42
  ∧ transcribe_audio ⟨"partial", "boom", false⟩ 42 = .fail "boom" "partial" 42 :=
  ⟨(c8_exit_status_contract ⟨" hello ", "log", true⟩ 42).1 rfl,
   (c8_exit_status_contract ⟨"partial", "boom", false⟩ 42).2.1 rfl⟩

/-- C10: with no option flags the defaults are model `small`, language
`ja`, format `text`, verbose off, empty override map; with zero positional
arguments after option parsing the run exits with code 1 and never builds
an engine invocation. -/
theorem c10_defaults_and_empty_args :
    (initConfig.model_size = "small" ∧ initConfig.language = "ja"
      ∧ initConfig.output_format = "text" ∧ initConfig.verbose = false
      ∧ initConfig.whisper_params = [])
  ∧ parse_options initConfig [] = initConfig
  ∧ (∀ opts f, run opts [] f = .error 1) :=
  ⟨⟨rfl, rfl, rfl, rfl, rfl⟩, rfl, fun _ _ => rfl⟩

/-- C7: with an existing regular file, a size strictly above 500 MiB is
rejected with exit code 1 before any engine invocation (the run produces
no argv), while a size of exactly 500 MiB passes validation. -/
theorem c7_file_size_limit (f : FileInfo) (hfound : f.found = true)
    (hfile : f.is_file = true) :
    (max_size < f.size →
      validate_audio_file f = .error 1
      ∧ ∀ opts audio rest, run opts (audio :: rest) f = .error 1)
  ∧ (f.size = max_size → validate_audio_file f = .ok ()) := by
  constructor
  · intro hsz
    have hv : validate_audio_file f = .error 1 := by
      simp [validate_audio_file, hfound, hfile, hsz]
    refine ⟨hv, fun opts audio rest => ?_⟩
    simp [run, hv]
  · intro hsz
    simp [validate_audio_file, hfound, hfile, hsz]

/-- Witness for C7: 500 MiB + 1 is rejected without an invocation,
500 MiB exactly passes. -/
theorem c7_file_size_limit_witness :
    validate_audio_file ⟨true, true, ".wav", max_size + 1⟩ = .error 1
  ∧ run [] ["meeting.wav"] ⟨true, true, ".wav", max_size + 1⟩ = .error 1
  ∧ validate_audio_file ⟨true, true, ".wav", max_size⟩ = .ok () :=
  ⟨((c7_file_size_limit ⟨true, true, ".wav", max_size + 1⟩ rfl rfl).1
      (Nat.lt_succ_self max_size)).1,
   ((c7_file_size_limit ⟨true, true, ".wav", max_size + 1⟩ rfl rfl).1
      (Nat.lt_succ_self max_size)).2 [] "meeting.wav" [],
   (c7_file_size_limit ⟨true, true, ".wav", max_size⟩ rfl rfl).2 rfl⟩

/-- C1 (violated by the code): the engine invocation's Python script embeds
the raw audio path between single quotes in its source text; the Python
string literal parsed back from that line equals the path only when the
path is quote-free — a path containing a quote character changes what the
script's `audio_file` literal denotes, so the invocation's semantics are
not independent of quote characters in the path. -/
theorem c1_path_spliced_into_script :
    (build_whisper_script initConfig benign_path).get? 8
        = some ("    audio_file = \x27" ++ benign_path ++ "\x27")
  ∧ (build_whisper_script initConfig quoted_path).get? 8
        = some ("    audio_file = \x27" ++ quoted_path ++ "\x27")
  ∧ parse_sq_literal ("    audio_file = \x27" ++ benign_path ++ "\x27").data
        = benign_path.data
  ∧ parse_sq_literal ("    audio_file = \x27" ++ quoted_path ++ "\x27").data
        ≠ quoted_path.data := by
  refine ⟨rfl, rfl, by decide, by decide⟩

theorem format_time_61_5 : format_time (123/2 : ℚ) = "00:01:01,500" := by
  have h1 : pytrunc (pyfloordiv (123/2 : ℚ) 3600) = 0 := by
    norm_num [pytrunc, pyfloordiv]
  have h2 : pytrunc (pyfloordiv (pymod (123/2 : ℚ) 3600) 60) = 1 := by
    norm_num [pytrunc, pyfloordiv, pymod]
  have h3 : pytrunc (pymod (123/2 : ℚ) 60) = 1 := by
    norm_num [pytrunc, pyfloordiv, pymod]
  have h4 : pytrunc (pymod (123/2 : ℚ) 1 * 1000) = 500 := by
    norm_num [pytrunc, pyfloordiv, pymod]
  simp only [format_time, h1, h2, h3, h4]
  decide

theorem format_time_63_25 : format_time (253/4 : ℚ) = "00:01:03,250" := by
  have h1 : pytrunc (pyfloordiv (253/4 : ℚ) 3600) = 0 := by
    norm_num [pytrunc, pyfloordiv]
  have h2 : pytrunc (pyfloordiv (pymod (253/4 : ℚ) 3600) 60) = 1 := by
    norm_num [pytrunc, pyfloordiv, pymod]
  have h3 : pytrunc (pymod (253/4 : ℚ) 60) = 3 := by
    norm_num [pytrunc, pyfloordiv, pymod]
  have h4 : pytrunc (pymod (253/4 : ℚ) 1 * 1000) = 250 := by
    norm_num [pytrunc, pyfloordiv, pymod]
  simp only [format_time, h1, h2, h3, h4]
  decide

set_option maxRecDepth 4000 in
/-- C2 (violated by the code): in the generated script the srt branch's
call of `format_time` appears strictly before the `def format_time` line —
at module level Python executes top to bottom, so with a non-empty segment
list the call raises `NameError` before any cue is printed.  The
`format_time` formula itself matches the specified rendering: 61.5 s and
63.25 s render as `00:01:01,500` and `00:01:03,250`. -/
theorem c2_format_time_defined_after_use :
    (let cfg : Config := { initConfig with output_format := "srt", whisper_params := [("no_preprocessing", .pbool true)] }
     let script := build_whisper_script cfg "meeting.wav"
     lineIdx "            start_time = format_time(start)" script
        < lineIdx "def format_time(seconds):" script
     ∧ lineIdx "def format_time(seconds):" script < script.length)
  ∧ format_time (123/2 : ℚ) = "00:01:01,500"
  ∧ format_time (253/4 : ℚ) = "00:01:03,250" := by
  refine ⟨⟨by decide, by decide⟩, format_time_61_5, format_time_63_25⟩

/-- C6 counterexample: stripping a later prompt phrase can recreate an
earlier one, which then survives post-processing — on this input the
returned text *is* one of the known prompt-echo phrases, so not every
occurrence of each phrase is removed. -/
theorem c6_phrase_survives_counterexample :
    process_text "ja" ("日本語の音声です日本語の音声です。：".data)
      = "日本語の音声です：".data
  ∧ "日本語の音声です：".data ∈ prompt_patterns
  ∧ occursIn ("日本語の音声です：".data)
      (process_text "ja" ("日本語の音声です日本語の音声です。：".data)) = true := by
  refine ⟨by decide, by decide, by decide⟩

/-! ## Termination of the prompt-phrase `while` loop (for C6) -/

theorem isPre_length {pat l : List Char} (h : isPre pat l = true) :
    pat.length ≤ l.length := by
  induction pat generalizing l with
  | nil => simp
  | cons a ps ih =>
    cases l with
    | nil => simp [isPre] at h
    | cons b ts =>
      simp only [isPre, Bool.and_eq_true, decide_eq_true_eq] at h
      simpa [List.length_cons] using Nat.succ_le_succ (ih h.2)

theorem occursIn_nil_of_ne {pat : List Char} (h : pat ≠ []) :
    occursIn pat [] = false := by
  cases pat with
  | nil => exact absurd rfl h
  | cons a ps => rfl

theorem replaceFirst_length_lt {pat text : List Char} (hp : pat ≠ [])
    (h : occursIn pat text = true) :
    (replaceFirst pat text).length < text.length := by
  induction text with
  | nil =>
    rw [occursIn_nil_of_ne hp] at h
    exact Bool.noConfusion h
  | cons c r ih =>
    cases hpre : isPre pat (c :: r) with
    | true =>
      have hlen := isPre_length hpre
      have hplen : 0 < pat.length := List.length_pos.mpr hp
      simp only [replaceFirst, hpre, if_true, List.length_drop]
      simp only [List.length_cons] at hlen ⊢
      omega
    | false =>
      simp only [occursIn, hpre, Bool.false_or] at h
      simp only [replaceFirst, hpre, Bool.false_eq_true, if_false, List.length_cons]
      exact Nat.succ_lt_succ (ih h)

theorem lstrip_length_le (l : List Char) : (lstrip l).length ≤ l.length :=
  (List.dropWhile_sublist pyWS).length_le

theorem rstrip_length_le (l : List Char) : (rstrip l).length ≤ l.length := by
  induction l with
  | nil => simp [rstrip]
  | cons c r ih =>
    cases ht : rstrip r with
    | nil =>
      by_cases h : pyWS c = true <;> simp [rstrip, ht, h, List.length_cons]
    | cons x xs =>
      rw [ht] at ih
      simp only [rstrip, ht, List.length_cons]
      exact Nat.succ_le_succ ih

theorem pstrip_length_le (l : List Char) : (pstrip l).length ≤ l.length :=
  Nat.le_trans (rstrip_length_le _) (lstrip_length_le _)

theorem stripLoopFuel_clears {pat : List Char} (hp : pat ≠ []) :
    ∀ fuel text, text.length < fuel →
      occursIn pat (stripLoopFuel pat fuel text) = false := by
  intro fuel
  induction fuel with
  | zero => exact fun text h => absurd h (Nat.not_lt_zero _)
  | succ n ih =>
    intro text h
    cases hoc : occursIn pat text with
    | true =>
      simp only [stripLoopFuel, hoc, if_true]
      apply ih
      have h1 := replaceFirst_length_lt hp hoc
      have h2 := pstrip_length_le (replaceFirst pat text)
      omega
    | false =>
      simp only [stripLoopFuel, hoc, Bool.false_eq_true, if_false]

/-- The loop exit condition really holds when the loop stops: after
`strip_pattern_loop pat text`, `pat` no longer occurs. -/
theorem strip_loop_clears {pat : List Char} (hp : pat ≠ []) (text : List Char) :
    occursIn pat (strip_pattern_loop pat text) = false :=
  stripLoopFuel_clears hp (text.length + 1) text (Nat.lt_succ_self _)

/-! ## Whitespace normalisation facts (for C6) -/

theorem noRepWS_tail {a : Char} {l : List Char} (h : noRepWS (a :: l) = true) :
    noRepWS l = true := by
  cases l with
  | nil => rfl
  | cons b r =>
    simp only [noRepWS, Bool.and_eq_true] at h
    exact h.2

theorem noRepWS_cons_build {a : Char} {l : List Char}
    (hhead : pyWS a = false ∨ leadWS l = false) (h : noRepWS l = true) :
    noRepWS (a :: l) = true := by
  cases l with
  | nil => rfl
  | cons b r =>
    simp only [noRepWS, Bool.and_eq_true]
    refine ⟨?_, h⟩
    rcases hhead with ha | hb
    · simp [ha]
    · simp only [leadWS] at hb
      simp [hb]

theorem collapseWS_cons_not_ws {c : Char} (h : pyWS c = false) (r : List Char) :
    collapseWS (c :: r) = c :: collapseWS r := by
  cases r with
  | nil => simp [collapseWS, h]
  | cons d s => simp [collapseWS, h]

theorem noRepWS_collapseWS (l : List Char) : noRepWS (collapseWS l) = true := by
  induction l with
  | nil => rfl
  | cons c r ih =>
    cases r with
    | nil =>
      by_cases h : pyWS c = true <;> simp [collapseWS, h, noRepWS]
    | cons d s =>
      by_cases hc : pyWS c = true
      · by_cases hd : pyWS d = true
        · simpa [collapseWS, hc, hd] using ih
        · have hd' : pyWS d = false := by
            cases hb : pyWS d with
            | true => exact absurd hb hd
            | false => rfl
          rw [show collapseWS (c :: d :: s) = ' ' :: collapseWS (d :: s) by
            simp [collapseWS, hc, hd']]
          refine noRepWS_cons_build ?_ ih
          right
          rw [collapseWS_cons_not_ws hd' s]
          simpa [leadWS] using hd'
      · have hc' : pyWS c = false := by
          cases hb : pyWS c with
          | true => exact absurd hb hc
          | false => rfl
        rw [collapseWS_cons_not_ws hc' (d :: s)]
        exact noRepWS_cons_build (Or.inl hc') ih

theorem noRepWS_lstrip {l : List Char} (h : noRepWS l = true) :
    noRepWS (lstrip l) = true := by
  induction l with
  | nil => rfl
  | cons c r ih =>
    by_cases hc : pyWS c = true
    · simp only [lstrip, List.dropWhile_cons, hc, if_true]
      exact ih (noRepWS_tail h)
    · have hc' : pyWS c = false := by
        cases hb : pyWS c with
        | true => exact absurd hb hc
        | false => rfl
      simpa [lstrip, List.dropWhile_cons, hc'] using h

theorem rstrip_head_shape (c : Char) (r : List Char) :
    rstrip (c :: r) = [] ∨ ∃ t, rstrip (c :: r) = c :: t := by
  cases ht : rstrip r with
  | nil =>
    by_cases h : pyWS c = true
    · left
      simp [rstrip, ht, h]
    · right
      exact ⟨[], by simp [rstrip, ht, h]⟩
  | cons x xs =>
    right
    exact ⟨x :: xs, by simp [rstrip, ht]⟩

theorem noRepWS_rstrip {l : List Char} (h : noRepWS l = true) :
    noRepWS (rstrip l) = true := by
  induction l with
  | nil => rfl
  | cons c r ih =>
    cases ht : rstrip r with
    | nil =>
      by_cases hc : pyWS c = true <;> simp [rstrip, ht, hc, noRepWS]
    | cons x xs =>
      rw [show rstrip (c :: r) = c :: x :: xs by simp [rstrip, ht]]
      have hr : noRepWS (x :: xs) = true := by
        rw [← ht]
        exact ih (noRepWS_tail h)
      refine noRepWS_cons_build ?_ hr
      cases r with
      | nil => simp [rstrip] at ht
      | cons y ys =>
        rcases rstrip_head_shape y ys with hz | ⟨t, hzt⟩
        · rw [hz] at ht
          exact absurd ht (by simp)
        · rw [hzt] at ht
          have hxy : x = y := by
            injection ht with h1 h2
            exact h1.symm
          cases hy : pyWS y with
          | true =>
            simp only [noRepWS, Bool.and_eq_true] at h
            left
            have := h.1
            cases hcw : pyWS c with
            | true => rw [hcw, hy] at this; simp at this
            | false => rfl
          | false =>
            right
            simp [leadWS, hxy, hy]

theorem leadWS_lstrip (l : List Char) : leadWS (lstrip l) = false := by
  induction l with
  | nil => rfl
  | cons c r ih =>
    by_cases hc : pyWS c = true
    · simpa [lstrip, List.dropWhile_cons, hc] using ih
    · have hc' : pyWS c = false := by
        cases hb : pyWS c with
        | true => exact absurd hb hc
        | false => rfl
      simp [lstrip, List.dropWhile_cons, hc', leadWS]

theorem leadWS_rstrip {l : List Char} (h : leadWS l = false) :
    leadWS (rstrip l) = false := by
  cases l with
  | nil => rfl
  | cons c r =>
    simp only [leadWS] at h
    rcases rstrip_head_shape c r with hz | ⟨t, hzt⟩
    · simp [hz, leadWS]
    · simp [hzt, leadWS, h]

theorem trailWS_cons {a : Char} {l : List Char} (hl : l ≠ []) :
    trailWS (a :: l) = trailWS l := by
  cases l with
  | nil => exact absurd rfl hl
  | cons b r => rfl

theorem trailWS_rstrip (l : List Char) : trailWS (rstrip l) = false := by
  induction l with
  | nil => rfl
  | cons c r ih =>
    cases ht : rstrip r with
    | nil =>
      by_cases hc : pyWS c = true
      · simp [rstrip, ht, hc, trailWS]
      · have hc' : pyWS c = false := by
          cases hb : pyWS c with
          | true => exact absurd hb hc
          | false => rfl
        simp [rstrip, ht, hc', trailWS]
    | cons x xs =>
      rw [show rstrip (c :: r) = c :: x :: xs by simp [rstrip, ht]]
      rw [trailWS_cons (by simp)]
      rw [← ht]
      exact ih

theorem wellSpaced_pstrip_collapseWS (l : List Char) :
    wellSpaced (pstrip (collapseWS l)) = true := by
  unfold wellSpaced pstrip
  have h1 : noRepWS (rstrip (lstrip (collapseWS l))) = true :=
    noRepWS_rstrip (noRepWS_lstrip (noRepWS_collapseWS l))
  have h2 : leadWS (rstrip (lstrip (collapseWS l))) = false :=
    leadWS_rstrip (leadWS_lstrip (collapseWS l))
  have h3 : trailWS (rstrip (lstrip (collapseWS l))) = false :=
    trailWS_rstrip (lstrip (collapseWS l))
  simp [h1, h2, h3]

/-- C6 (amended): post-processing is applied when and only when the
language is `"ja"` (otherwise the text is only stripped); each prompt-echo
phrase's loop strips that phrase until it no longer occurs at its stage
(removal of a later phrase can recreate an earlier one, which is not
revisited — see the counterexample); the result is
whitespace-collapsed and trimmed unless the placeholder was substituted;
and the returned text is never empty. -/
theorem c6_ja_postprocessing :
    (∀ language raw, language ≠ "ja" → process_text language raw = pstrip raw)
  ∧ (∀ raw, process_text "ja" raw ≠ [])
  ∧ (∀ pat text, pat ≠ [] → occursIn pat (strip_pattern_loop pat text) = false)
  ∧ (∀ raw, process_text "ja" raw = placeholder
        ∨ wellSpaced (process_text "ja" raw) = true) := by
  refine ⟨fun language raw h => by simp [process_text, h], ?_,
    fun pat text hp => strip_loop_clears hp text, ?_⟩
  · intro raw
    simp only [process_text, if_pos]
    unfold postprocess_ja
    by_cases h : pstrip (pstrip (collapseWS (strip_prompts (pstrip raw)))) = []
    · rw [if_pos h]
      decide
    · rw [if_neg h]
      intro hnil
      rw [hnil] at h
      exact h rfl
  · intro raw
    simp only [process_text, if_pos]
    unfold postprocess_ja
    by_cases h : pstrip (pstrip (collapseWS (strip_prompts (pstrip raw)))) = []
    · rw [if_pos h]
      exact Or.inl rfl
    · rw [if_neg h]
      exact Or.inr (wellSpaced_pstrip_collapseWS _)

/-- Witness for C6 (amended) at concrete languages, texts and patterns. -/
theorem c6_ja_postprocessing_witness :
    process_text "en" ("  hi  ".data) = pstrip ("  hi  ".data)
  ∧ process_text "ja" [] ≠ []
  ∧ occursIn ("日本語の音声です：".data)
      (strip_pattern_loop ("日本語の音声です：".data)
        ("日本語の音声です：こんにちは".data)) = false :=
  ⟨c6_ja_postprocessing.1 "en" ("  hi  ".data) (by decide),
   c6_ja_postprocessing.2.1 [],
   c6_ja_postprocessing.2.2.1 ("日本語の音声です：".data)
     ("日本語の音声です：こんにちは".data) (by decide)⟩

end MeetingSummarizer
